import Mathlib

/-!
Verification of the VoiceAssistant wake-word / VAD pipeline.

This file embeds, as executable Lean definitions, the parts of the source
that the claims are about:

* `VadIterator::predict` and `VadIterator::process` (streaming voice-activity
  state machine, `src/unnamed/part_001`);
* the activation-counter logic of `WakeupDetector::featuresToOutput`
  (`src/app/src/main/cpp/wakeup_detector.cpp`);
* the mel and embedding stage loops `WakeupDetector::audioToMels` and
  `WakeupDetector::melsToFeatures` (same file);
* the delayed voice-end overlay of `WakeupDetector::processAudio` and the
  VAD callback installed by `WakeupDetector::initializeVAD` (same file);
* the capture buffer of `WakeupDetectorService.processAudioRunnable` and
  `WakeupDetectorService.processVoiceActivityAudio` (`src/unnamed/part_005`).

Neural-network inferences are abstracted as oracle functions; samples and
probabilities are rationals standing for the source's `float`s.
-/

/-- Speech segment record (`timestamp_t` in the source).  The source's field
`end` is called `stop` here because `end` is a Lean keyword. -/
structure Timestamp where
  start : Int
  stop : Int
deriving Repr, DecidableEq

/-- State of `VadIterator`.  `temp_end` and `current_sample` are `unsigned int`
in the source; they are modelled as `Int`/`Nat` (along every execution the
source stores only non-negative in-range values into them, see the invariants
proved below). -/
structure VadState where
  triggered : Bool
  temp_end : Int
  current_sample : Nat
  prev_end : Int
  next_start : Int
  speeches : List Timestamp
  current_speech : Timestamp
  context : List ℚ
  rnn : List ℚ
deriving Repr, DecidableEq

/-- `context_samples = 64` in `VadIterator`. -/
def context_samples : Nat := 64

/-- `window_size_samples = 32 * 16 = 512` for the constructor arguments used by
`WakeupDetector::initializeVAD` (16 kHz, 32 ms frames). -/
def window_size_samples : Nat := 512

/-- `effective_window_size = window_size_samples + context_samples = 576`. -/
def effective_window_size : Nat := window_size_samples + context_samples

/-- VAD probability threshold (`threshold = 0.5`).  Written with `mkRat` so
that concrete runs of the state machine evaluate inside the kernel
(`Rat.div` is irreducible); `vadThreshold_eq` states the usual form. -/
def vadThreshold : ℚ := mkRat 1 2

/-- The low hysteresis band `threshold - 0.15 = 0.35` that
`VadIterator::predict` computes inline; `vadThresholdLow_eq` states that it
is exactly `vadThreshold - 3/20`. -/
def vadThresholdLow : ℚ := mkRat 7 20

/-- `min_silence_samples = 16 * 100 = 1600`. -/
def min_silence_samples : Int := 16 * 100

/-- `min_silence_samples_at_max_speech = 16 * 98 = 1568`. -/
def min_silence_samples_at_max_speech : Int := 16 * 98

/-- `min_speech_samples = 16 * 250 = 4000`. -/
def min_speech_samples : Int := 16 * 250

/-- `max_speech_samples = 16000 * 30 = 480000`. -/
def max_speech_samples : Int := 16000 * 30

/-- The VAD neural network, abstracted: maps the 576-sample input window and
the recurrent state (`_state`, 2*1*128 floats) to the speech probability and
the next recurrent state (the `session->Run` call in `VadIterator::predict`). -/
def VadModel : Type := List ℚ → List ℚ → ℚ × List ℚ

/-- State after `VadIterator::reset_states`: everything cleared/zeroed,
`current_speech` back to the default `timestamp_t()` which is `(-1, -1)`. -/
def vadInit : VadState :=
  { triggered := false
    temp_end := 0
    current_sample := 0
    prev_end := 0
    next_start := 0
    speeches := []
    current_speech := ⟨-1, -1⟩
    context := List.replicate context_samples 0
    rnn := List.replicate 256 0 }

/-- `VadIterator::reset_states` clears every piece of mutable VAD state, so it
is the constant function to `vadInit`. -/
def reset_states (_st : VadState) : VadState := vadInit

/-- The input built at the top of `VadIterator::predict`: a 576-sample vector
that is `context ‖ data_chunk`, zero-padded (`new_data` is zero-initialised and
the chunk is copied at offset 64; all callers pass 512-sample chunks). -/
def newDataOf (ctx chunk : List ℚ) : List ℚ :=
  (ctx ++ chunk ++ List.replicate window_size_samples 0).take effective_window_size

/-- The probability branches of `VadIterator::predict`, abstracted over the
already-computed probability (`speech_prob`), refreshed context slice
(`ctx2`, the last 64 samples of `new_data`) and new recurrent state
(`stateN`).  `current_sample` has already been advanced by
`window_size_samples` in the source when the branches run, so every branch
below both applies that increment and reads `cs` as the incremented value.
The two sequential `if`s of the source's first branch (`temp_end != 0`, then
`!triggered`) are written as nested `if`s with identical bodies. -/
def predictCore (speech_prob : ℚ) (ctx2 stateN : List ℚ) (st : VadState) :
    VadState × List Bool :=
  let cs : Int := ((st.current_sample + window_size_samples : Nat) : Int)
  if vadThreshold ≤ speech_prob then
    -- speech_prob >= threshold
    if st.temp_end ≠ 0 then
      if st.triggered then
        ({ st with temp_end := 0
                   next_start :=
                     if st.next_start < st.prev_end then cs - (window_size_samples : Int)
                     else st.next_start
                   rnn := stateN
                   current_sample := st.current_sample + window_size_samples
                   context := ctx2 }, [])
      else
        ({ st with temp_end := 0
                   next_start :=
                     if st.next_start < st.prev_end then cs - (window_size_samples : Int)
                     else st.next_start
                   triggered := true
                   current_speech :=
                     { st.current_speech with start := cs - (window_size_samples : Int) }
                   rnn := stateN
                   current_sample := st.current_sample + window_size_samples
                   context := ctx2 }, [true])
    else
      if st.triggered then
        ({ st with rnn := stateN
                   current_sample := st.current_sample + window_size_samples
                   context := ctx2 }, [])
      else
        ({ st with triggered := true
                   current_speech :=
                     { st.current_speech with start := cs - (window_size_samples : Int) }
                   rnn := stateN
                   current_sample := st.current_sample + window_size_samples
                   context := ctx2 }, [true])
  else if st.triggered = true ∧ cs - st.current_speech.start > max_speech_samples then
    -- the speech segment became too long
    if 0 < st.prev_end then
      if st.next_start < st.prev_end then
        ({ st with speeches :=
                     st.speeches ++ [{ start := st.current_speech.start, stop := st.prev_end }]
                   current_speech := ⟨-1, -1⟩
                   triggered := false
                   prev_end := 0, next_start := 0, temp_end := 0
                   rnn := stateN
                   current_sample := st.current_sample + window_size_samples
                   context := ctx2 }, [false])
      else
        ({ st with speeches :=
                     st.speeches ++ [{ start := st.current_speech.start, stop := st.prev_end }]
                   current_speech := { start := st.next_start, stop := -1 }
                   prev_end := 0, next_start := 0, temp_end := 0
                   rnn := stateN
                   current_sample := st.current_sample + window_size_samples
                   context := ctx2 }, [])
    else
      ({ st with speeches :=
                   st.speeches ++ [{ start := st.current_speech.start, stop := cs }]
                 current_speech := ⟨-1, -1⟩
                 triggered := false
                 prev_end := 0, next_start := 0, temp_end := 0
                 rnn := stateN
                 current_sample := st.current_sample + window_size_samples
                 context := ctx2 }, [false])
  else if vadThresholdLow ≤ speech_prob ∧ speech_prob < vadThreshold then
    -- probability in the hysteresis band: no state change
    ({ st with rnn := stateN
               current_sample := st.current_sample + window_size_samples
               context := ctx2 }, [])
  else if speech_prob < vadThresholdLow then
    if st.triggered then
      let te : Int := if st.temp_end = 0 then cs else st.temp_end
      let pe : Int := if cs - te > min_silence_samples_at_max_speech then te else st.prev_end
      if cs - te ≥ min_silence_samples then
        if te - st.current_speech.start > min_speech_samples then
          ({ st with speeches :=
                       st.speeches ++ [{ start := st.current_speech.start, stop := te }]
                     current_speech := ⟨-1, -1⟩
                     triggered := false
                     prev_end := 0, next_start := 0, temp_end := 0
                     rnn := stateN
                     current_sample := st.current_sample + window_size_samples
                     context := ctx2 }, [false])
        else
          ({ st with temp_end := te, prev_end := pe
                     current_speech := { st.current_speech with stop := te }
                     rnn := stateN
                     current_sample := st.current_sample + window_size_samples
                     context := ctx2 }, [])
      else
        ({ st with temp_end := te, prev_end := pe
                   rnn := stateN
                   current_sample := st.current_sample + window_size_samples
                   context := ctx2 }, [])
    else
      ({ st with rnn := stateN
                 current_sample := st.current_sample + window_size_samples
                 context := ctx2 }, [])
  else
    -- unreachable fall-through (line 236): no context refresh
    ({ st with rnn := stateN
               current_sample := st.current_sample + window_size_samples }, [])

/-- One step of `VadIterator::predict` (src/unnamed/part_001, lines 118-237):
build the 576-sample input from the context and the chunk, run the model,
store the new recurrent state, advance `current_sample` by 512, then run the
probability branches (`predictCore` holds the branch bodies verbatim).

The returned list contains the values passed to `vad_callback` during the
step: `true` for a voice-activity START notification, `false` for END.

Faithful details: `current_sample += window_size_samples` happens right after
inference and, in particular, before all probability branches; the context is
refreshed with the last 64 samples of `new_data` on every taken branch; the
fall-through at the end of the function (line 236) updates neither the context
nor anything else. -/
def predict (model : VadModel) (st : VadState) (data_chunk : List ℚ) :
    VadState × List Bool :=
  let new_data := newDataOf st.context data_chunk
  let pr := model new_data st.rnn
  predictCore pr.1 (new_data.drop (effective_window_size - context_samples)) pr.2 st

/-- The probability the model produces for one `predict` step from `st`. -/
def probOf (model : VadModel) (st : VadState) (chunk : List ℚ) : ℚ :=
  (model (newDataOf st.context chunk) st.rnn).1

/-- Run `predict` over a list of chunks, concatenating the emitted callback
values (this is exactly what `WakeupDetector::vadProcessing` does with the
512-sample chunks it slices off its input buffer). -/
def runPredicts (model : VadModel) : VadState → List (List ℚ) → VadState × List Bool
  | st, [] => (st, [])
  | st, c :: cs =>
      let r := predict model st c
      let s := runPredicts model r.1 cs
      (s.1, r.2 ++ s.2)

/-- A concrete oracle used for counterexample traces: the probability is the
65th value of the input window, i.e. the first sample of the chunk (the
recurrent state is passed through unchanged).  This lets a trace drive the
probability sequence through the audio samples alone. -/
def probeModel : VadModel := fun nd s => (nd.getD context_samples 0, s)

/-- An all-zero (silence-classified under `probeModel`) 512-sample chunk. -/
def zeroChunk : List ℚ := List.replicate 512 0

/-- A chunk whose first sample is `p`, the rest zero: under `probeModel` a
`predict` step on it sees probability `p`. -/
def probChunk (p : ℚ) : List ℚ := p :: List.replicate 511 0

/-- `vadThreshold` is the source's `0.5`. -/
theorem vadThreshold_eq : vadThreshold = 1 / 2 := by
  rw [vadThreshold, Rat.mkRat_eq_divInt]; norm_num [Rat.divInt_eq_div]

/-- `vadThresholdLow` is exactly the `threshold - 0.15` that
`VadIterator::predict` computes inline. -/
theorem vadThresholdLow_eq : vadThresholdLow = vadThreshold - 3 / 20 := by
  rw [vadThresholdLow, vadThreshold, Rat.mkRat_eq_divInt, Rat.mkRat_eq_divInt]
  norm_num [Rat.divInt_eq_div]

/-- `VadIterator::process`: slices the input into whole 512-sample chunks
starting at 0 (the loop `for j += window_size_samples` with
`if j + window_size_samples > audio_length_samples break`), i.e. the maximal
prefix of exact `n`-sized chunks; the trailing partial chunk is dropped. -/
def exactChunks (n : Nat) (l : List ℚ) : List (List ℚ) :=
  if h : 0 < n ∧ n ≤ l.length then
    l.take n :: exactChunks n (l.drop n)
  else []
termination_by l.length
decreasing_by
  simp only [List.length_drop]
  omega

/-- `VadIterator::process` (src/unnamed/part_001, lines 240-264): reset all
state, run `predict` over the whole 512-sample chunks, then, when a speech
segment is still open (`current_speech.start >= 0 && triggered`), close it at
`audio_length_samples` and notify the callback with `false`. -/
def process (model : VadModel) (st : VadState) (input_wav : List ℚ) :
    VadState × List Bool :=
  let st0 := reset_states st
  let r := runPredicts model st0 (exactChunks window_size_samples input_wav)
  let stM := r.1
  if stM.current_speech.start ≥ 0 ∧ stM.triggered = true then
    ({ stM with speeches := stM.speeches ++ [⟨stM.current_speech.start, (input_wav.length : Int)⟩]
                current_speech := ⟨-1, -1⟩
                prev_end := 0, next_start := 0, temp_end := 0
                triggered := false }, r.2 ++ [false])
  else r

/-- Strict alternation checker for the emitted callback values: consumes the
event list expecting `e` first and flipping the expectation at each event;
returns the next expected value, or `none` as soon as the alternation is
broken.  `altRun true evs = some e` says the events strictly alternate
starting with a START. -/
def altRun : Bool → List Bool → Option Bool
  | e, [] => some e
  | e, b :: r => if b = e then altRun (!e) r else none

/-! ## Wake-word activation counter

`WakeupDetector::featuresToOutput` (wakeup_detector.cpp, lines 670-707):
per wake-word probability, `activation` is incremented above the threshold
and fires at `triggerLevel`, resetting to `-refractory`; below the threshold
it decays towards 0 from either side. -/

/-- `threshold = 0.5f` in `WakeupDetector`. -/
def wwThreshold : ℚ := mkRat 1 2

/-- `triggerLevel = 1` in `WakeupDetector`. -/
def triggerLevel : Int := 1

/-- `refractory = 20` in `WakeupDetector`. -/
def refractory : Int := 20

/-- One probability's worth of the activation-counter update in
`featuresToOutput`; returns the new counter and whether a detection fired. -/
def activationStep (p : ℚ) (activation : Int) : Int × Bool :=
  if wwThreshold < p then
    if triggerLevel ≤ activation + 1 then (-refractory, true)
    else (activation + 1, false)
  else
    if 0 < activation then (max 0 (activation - 1), false)
    else (min 0 (activation + 1), false)

/-- Modelled from the spec: the activation-counter update rule of section 3
('Activation Counter'), word for word: above the threshold increment and fire
at `triggerLevel` (resetting to `-refractory`); otherwise decay towards 0. -/
def specActivationStep (p : ℚ) (counter : Int) : Int × Bool :=
  if wwThreshold < p then
    let counter := counter + 1
    if triggerLevel ≤ counter then (-refractory, true) else (counter, false)
  else if 0 < counter then (max 0 (counter - 1), false)
  else (min 0 (counter + 1), false)

/-- The trace of (counter, fired) pairs over a probability stream, starting
from counter value `a` (`activation` starts at 0 when the thread starts). -/
def activationRun : List ℚ → Int → List (Int × Bool)
  | [], _ => []
  | p :: ps, a =>
      let r := activationStep p a
      r :: activationRun ps r.1

/-! ## Mel stage

`WakeupDetector::audioToMels` (wakeup_detector.cpp, lines 448-496): the inner
`while (todoSamples.size() >= frameSize)` loop runs the mel model over the
oldest `frameSize` samples, pushes every output value rescaled by
`v / 10 + 2`, and erases exactly those `frameSize` samples. -/

/-- `frameSize = 4 * chunkSamples = 4 * 1280 = 5120`. -/
def frameSize : Nat := 5120

/-- The mel neural network, abstracted: one inference over a 5120-sample
frame produces a block of raw mel values (the count is whatever the model's
output shape says). -/
def MelModel : Type := List ℚ → List ℚ

/-- The rescaling `(melData[i] / 10.0f) + 2.0f` applied to every mel value. -/
def melTransform (v : ℚ) : ℚ := v / 10 + 2

/-- The inner loop of `audioToMels` on the working buffer `todoSamples`:
returns the mel values produced (in production order) and the samples that
remain buffered. -/
def audioToMelsLoop (melModel : MelModel) (buf : List ℚ) : List ℚ × List ℚ :=
  if h : frameSize ≤ buf.length then
    let out := (melModel (buf.take frameSize)).map melTransform
    let r := audioToMelsLoop melModel (buf.drop frameSize)
    (out ++ r.1, r.2)
  else ([], buf)
termination_by buf.length
decreasing_by
  simp only [List.length_drop]
  simp only [frameSize] at h ⊢
  omega

/-- The outer loop of `audioToMels` across wake-ups of the mel thread: each
arriving batch of samples is appended to the retained remainder and the inner
loop runs again.  Returns all mel values produced and the final remainder. -/
def melStreamRun (melModel : MelModel) : List (List ℚ) → List ℚ → List ℚ × List ℚ
  | [], buf => ([], buf)
  | b :: bs, buf =>
      let r := audioToMelsLoop melModel (buf ++ b)
      let s := melStreamRun melModel bs r.2
      (r.1 ++ s.1, s.2)

/-! ## Embedding stage

`WakeupDetector::melsToFeatures` (wakeup_detector.cpp, lines 534-583): while
at least `embWindowSize` mel frames are buffered, one embedding inference
runs over the oldest window, its output is appended to the feature buffer of
every wake-word model, and the oldest `embStepSize * numMels` values are
erased. -/

/-- `numMels = 32`. -/
def numMels : Nat := 32

/-- `embWindowSize = 76`. -/
def embWindowSize : Nat := 76

/-- `embStepSize = 8`. -/
def embStepSize : Nat := 8

/-- The embedding neural network, abstracted: one inference over a
76-frame/32-bin mel window produces one embedding (a block of output
values). -/
def EmbModel : Type := List ℚ → List ℚ

/-- The inner loop of `melsToFeatures` on the working buffer `todoMels`:
returns the embeddings emitted (in order) and the remaining mel values.
The loop guard is `melFrames >= embWindowSize` with
`melFrames = todoMels.size() / numMels`. -/
def melsToFeaturesLoop (embModel : EmbModel) (buf : List ℚ) :
    List (List ℚ) × List ℚ :=
  if h : embWindowSize ≤ buf.length / numMels then
    let e := embModel (buf.take (embWindowSize * numMels))
    let r := melsToFeaturesLoop embModel (buf.drop (embStepSize * numMels))
    (e :: r.1, r.2)
  else ([], buf)
termination_by buf.length
decreasing_by
  simp only [List.length_drop]
  simp only [embWindowSize, numMels, embStepSize] at h ⊢
  omega

/-- The same loop carried out on the per-wake-word feature queues: at each
iteration the embedding output is appended to the feature buffer of every
wake-word model (the `for (i < features.size())` loop), exactly as the source
interleaves the broadcast with the buffer erasure. -/
def melsToFeaturesQueues (embModel : EmbModel) (feats : List (List ℚ))
    (buf : List ℚ) : List (List ℚ) × List ℚ :=
  if h : embWindowSize ≤ buf.length / numMels then
    let e := embModel (buf.take (embWindowSize * numMels))
    melsToFeaturesQueues embModel (feats.map (fun q => q ++ e))
      (buf.drop (embStepSize * numMels))
  else (feats, buf)
termination_by buf.length
decreasing_by
  simp only [List.length_drop]
  simp only [embWindowSize, numMels, embStepSize] at h ⊢
  omega

/-! ## Delayed voice-end overlay

`WakeupDetector::initializeVAD` installs a `vad_callback` on the `VadIterator`
(wakeup_detector.cpp, lines 819-843) and `WakeupDetector::processAudio`
(lines 400-418) counts feed ticks while `voiceEndPending` is set, delivering
the external end notification after `voiceEndDelayFrames` ticks.  The inputs
interleave the raw callback values with the feed ticks. -/

/-- An input to the overlay: a raw VAD callback with `isSpeaking = true`
(START) or `false` (END), or one `processAudio` call (a feed tick). -/
inductive OvIn
  | rawStart
  | rawEnd
  | tick
deriving Repr, DecidableEq

/-- The externally delivered notifications
(`notifyVoiceActivityStarted` / `notifyVoiceActivityEnded`). -/
inductive ExtEvent
  | started
  | ended
deriving Repr, DecidableEq

/-- The flags of the overlay: `isVoiceDetected`, `previousVoiceState`,
`voiceEndPending`, `voiceEndFrameCount`. -/
structure OverlayState where
  isVoiceDetected : Bool
  previousVoiceState : Bool
  voiceEndPending : Bool
  voiceEndFrameCount : Nat
deriving Repr, DecidableEq

/-- Overlay state after `start` / `enableVAD(true)`: everything cleared. -/
def overlayInit : OverlayState :=
  { isVoiceDetected := false
    previousVoiceState := false
    voiceEndPending := false
    voiceEndFrameCount := 0 }

/-- One overlay input, for delay parameter `D = voiceEndDelayFrames`.

* raw callbacks (the lambda in `initializeVAD`): first
  `previousState = previousVoiceState.exchange(isVoiceDetected)`; on
  `isSpeaking` and `!previousState`, mark voice detected, clear any pending
  end and notify started; on `!isSpeaking` and `isVoiceDetected`, flag the
  pending delayed end;
* a feed tick (`processAudio` with VAD enabled): if an end is pending,
  increment `voiceEndFrameCount` and at `D` deliver the ended notification,
  clearing the flags. -/
def overlayStep (D : Nat) (st : OverlayState) : OvIn → OverlayState × List ExtEvent
  | .rawStart =>
      let prev := st.previousVoiceState
      let st1 := { st with previousVoiceState := st.isVoiceDetected }
      if prev = false then
        ({ st1 with isVoiceDetected := true
                    voiceEndPending := false
                    voiceEndFrameCount := 0 }, [.started])
      else (st1, [])
  | .rawEnd =>
      let st1 := { st with previousVoiceState := st.isVoiceDetected }
      if st1.isVoiceDetected then
        ({ st1 with voiceEndPending := true, voiceEndFrameCount := 0 }, [])
      else (st1, [])
  | .tick =>
      if st.voiceEndPending then
        let c := st.voiceEndFrameCount + 1
        if D ≤ c then
          ({ st with isVoiceDetected := false
                     voiceEndPending := false
                     voiceEndFrameCount := 0 }, [.ended])
        else ({ st with voiceEndFrameCount := c }, [])
      else (st, [])

/-- Run the overlay over an input sequence, concatenating delivered events. -/
def overlayRun (D : Nat) : OverlayState → List OvIn → OverlayState × List ExtEvent
  | st, [] => (st, [])
  | st, i :: is =>
      let r := overlayStep D st i
      let s := overlayRun D r.1 is
      (s.1, r.2 ++ s.2)

/-! ## Capture buffer

`WakeupDetectorService.processAudioRunnable` (src/unnamed/part_005, lines
345-365) appends each `AudioRecord` read to `voiceActivityBuffer` while
`isCapturingVoiceActivity && capturedSamplesCount < MAX_SPEECH_DURATION_SAMPLES`;
`processVoiceActivityAudio` (lines 545-584) concatenates the chunks into the
delivered PCM array of length `capturedSamplesCount`. -/

/-- `MAX_SPEECH_DURATION_SAMPLES = SAMPLE_RATE * 30 = 480000`. -/
def MAX_SPEECH_DURATION_SAMPLES : Nat := 16000 * 30

/-- The capture-relevant state of `WakeupDetectorService`. -/
structure CaptureState where
  isCapturingVoiceActivity : Bool
  voiceActivityBuffer : List (List Int)
  capturedSamplesCount : Nat
deriving Repr, DecidableEq

/-- State right after `onWakeWordDetected`: capture armed, buffer cleared,
count zeroed. -/
def captureStart : CaptureState :=
  { isCapturingVoiceActivity := true
    voiceActivityBuffer := []
    capturedSamplesCount := 0 }

/-- One `audioRecord.read` worth of `processAudioRunnable`: if capturing and
the count is still below the cap, the whole read (`bufferCopy`) is appended
and the count advanced by its size; otherwise nothing is stored. -/
def captureRead (st : CaptureState) (bufferCopy : List Int) : CaptureState :=
  if st.isCapturingVoiceActivity = true ∧
      st.capturedSamplesCount < MAX_SPEECH_DURATION_SAMPLES then
    { st with voiceActivityBuffer := st.voiceActivityBuffer ++ [bufferCopy]
              capturedSamplesCount := st.capturedSamplesCount + bufferCopy.length }
  else st

/-- Fold `captureRead` over a sequence of reads. -/
def runCapture : CaptureState → List (List Int) → CaptureState
  | st, [] => st
  | st, r :: rs => runCapture (captureRead st r) rs

/-- The chunk-combining loop of `processVoiceActivityAudio`: writes each chunk
(clipped to the space remaining out of `totalSize`) into the zero-initialised
output array, breaking when `chunkSize <= 0`; positions never written stay 0. -/
def combineChunksGo : Nat → List (List Int) → List Int
  | remaining, [] => List.replicate remaining 0
  | remaining, c :: cs =>
      let k := min c.length remaining
      if k = 0 then List.replicate remaining 0
      else c.take k ++ combineChunksGo (remaining - k) cs

/-- The PCM array `processVoiceActivityAudio` hands to
`onAudioCaptureCompleted`: `new short[capturedSamplesCount]` filled from the
buffered chunks. -/
def deliveredPCM (st : CaptureState) : List Int :=
  combineChunksGo st.capturedSamplesCount st.voiceActivityBuffer

/-! ## Basic lemmas about the capture buffer -/

/-- The combining loop always fills an array of exactly `remaining` cells
(`new short[totalSize]` is fully allocated; unwritten cells stay zero). -/
theorem combineChunksGo_length (cs : List (List Int)) :
    ∀ remaining, (combineChunksGo remaining cs).length = remaining := by
  induction cs with
  | nil => intro r; simp [combineChunksGo]
  | cons c cs ih =>
      intro r
      simp only [combineChunksGo]
      by_cases h : min c.length r = 0
      · simp [h]
      · simp only [h, if_false]
        have hk : min c.length r ≤ r := Nat.min_le_right _ _
        have hc : min c.length r ≤ c.length := Nat.min_le_left _ _
        rw [List.length_append, List.length_take, ih]
        omega

/-- While capturing, a run of `n` identical-size reads that never reaches the
cap before its last read appends every read whole. -/
theorem runCapture_replicate_count (read : List Int) :
    ∀ (n : Nat) (st : CaptureState),
      st.isCapturingVoiceActivity = true →
      st.capturedSamplesCount + (n - 1) * read.length < MAX_SPEECH_DURATION_SAMPLES →
      (runCapture st (List.replicate n read)).capturedSamplesCount
        = st.capturedSamplesCount + n * read.length := by
  intro n
  induction n with
  | zero => intro st _ _; simp [runCapture]
  | succ m ih =>
      intro st hcap hlt
      have hlt0 : st.capturedSamplesCount < MAX_SPEECH_DURATION_SAMPLES := by
        have := Nat.le_add_right st.capturedSamplesCount ((m + 1 - 1) * read.length)
        omega
      simp only [List.replicate_succ, runCapture]
      rw [captureRead, if_pos ⟨hcap, hlt0⟩]
      cases m with
      | zero =>
          simp only [List.replicate_zero, runCapture]
          omega
      | succ k =>
          have hcap' : ({ st with
              voiceActivityBuffer := st.voiceActivityBuffer ++ [read],
              capturedSamplesCount := st.capturedSamplesCount + read.length } :
              CaptureState).isCapturingVoiceActivity = true := hcap
          rw [ih _ hcap' ?_]
          · simp only [Nat.add_sub_cancel, Nat.succ_mul]
            omega
          · simp only [Nat.add_sub_cancel, Nat.succ_mul] at hlt ⊢
            omega

/-- A state whose count is below `cap + B` keeps that bound across any reads
of size at most `B`. -/
theorem runCapture_count_lt (B : Nat) :
    ∀ (reads : List (List Int)) (st : CaptureState),
      (∀ r ∈ reads, r.length ≤ B) →
      st.capturedSamplesCount < MAX_SPEECH_DURATION_SAMPLES + B →
      (runCapture st reads).capturedSamplesCount < MAX_SPEECH_DURATION_SAMPLES + B := by
  intro reads
  induction reads with
  | nil => intro st _ h; simpa [runCapture] using h
  | cons r rs ih =>
      intro st hsz hst
      simp only [runCapture]
      apply ih _ (fun x hx => hsz x (List.mem_cons_of_mem _ hx))
      rw [captureRead]
      split
      · next hcond =>
          have hr : r.length ≤ B := hsz r (List.mem_cons_self r rs)
          simp only []
          omega
      · exact hst

/-- C1 as stated is false: 938 consecutive microphone reads of 512 samples
(all while capturing) drive `capturedSamplesCount` to 480256, and the PCM
array delivered by `processVoiceActivityAudio` then has 480256 > 480000
samples — the guard `capturedSamplesCount < MAX_SPEECH_DURATION_SAMPLES` is
checked before the append and the appended read is never truncated. -/
theorem capture_cap_counterexample :
    480000 <
      (deliveredPCM
        (runCapture captureStart
          (List.replicate 938 (List.replicate 512 (0 : Int))))).length := by
  have hlen : (List.replicate 512 (0 : Int)).length = 512 := by
    rw [List.length_replicate]
  have hbound : captureStart.capturedSamplesCount
      + (938 - 1) * (List.replicate 512 (0 : Int)).length
      < MAX_SPEECH_DURATION_SAMPLES := by
    rw [hlen]
    norm_num [captureStart, MAX_SPEECH_DURATION_SAMPLES]
  have hcount := runCapture_replicate_count (List.replicate 512 (0 : Int))
    938 captureStart rfl hbound
  rw [deliveredPCM, combineChunksGo_length, hcount, hlen]
  norm_num [captureStart]

/-- C1, amended.  While capturing, every read arriving while
`capturedSamplesCount` is still below the 480,000-sample cap is appended
whole (never truncated); appending stops once the count has reached the cap,
so the count — and with it the length of the PCM array delivered by the
capture-completed event — stays below 480,000 + B where B bounds the size of
a single microphone read, but it need not stay at or below 480,000 itself. -/
theorem capture_cap_amended (reads : List (List Int)) (B : Nat)
    (hB : ∀ r ∈ reads, r.length ≤ B) :
    (∀ (st : CaptureState) (r : List Int),
        st.isCapturingVoiceActivity = true →
        st.capturedSamplesCount < MAX_SPEECH_DURATION_SAMPLES →
        (captureRead st r).voiceActivityBuffer = st.voiceActivityBuffer ++ [r]
          ∧ (captureRead st r).capturedSamplesCount
              = st.capturedSamplesCount + r.length)
    ∧ (runCapture captureStart reads).capturedSamplesCount
        < MAX_SPEECH_DURATION_SAMPLES + B
    ∧ (deliveredPCM (runCapture captureStart reads)).length
        = (runCapture captureStart reads).capturedSamplesCount := by
  refine ⟨?_, ?_, ?_⟩
  · intro st r hcap hlt
    rw [captureRead, if_pos ⟨hcap, hlt⟩]
    exact ⟨rfl, rfl⟩
  · exact runCapture_count_lt B reads captureStart hB
      (by norm_num [captureStart, MAX_SPEECH_DURATION_SAMPLES])
  · exact combineChunksGo_length _ _

/-- Witness for `capture_cap_amended` at a concrete input. -/
theorem capture_cap_amended_witness :
    (∀ r ∈ [[(0 : Int), 0, 0]], r.length ≤ 3)
    ∧ ((∀ (st : CaptureState) (r : List Int),
          st.isCapturingVoiceActivity = true →
          st.capturedSamplesCount < MAX_SPEECH_DURATION_SAMPLES →
          (captureRead st r).voiceActivityBuffer = st.voiceActivityBuffer ++ [r]
            ∧ (captureRead st r).capturedSamplesCount
                = st.capturedSamplesCount + r.length)
       ∧ (runCapture captureStart [[(0 : Int), 0, 0]]).capturedSamplesCount
           < MAX_SPEECH_DURATION_SAMPLES + 3
       ∧ (deliveredPCM (runCapture captureStart [[(0 : Int), 0, 0]])).length
           = (runCapture captureStart [[(0 : Int), 0, 0]]).capturedSamplesCount) :=
  ⟨by decide, capture_cap_amended [[(0 : Int), 0, 0]] 3 (by decide)⟩

/-! ## Shape of a single VAD step and alternation of its events -/

set_option maxHeartbeats 1000000 in
/-- Every branch of the VAD step either emits nothing and leaves `triggered`
unchanged, or emits exactly one START while flipping `triggered` from false
to true, or emits exactly one END while flipping it from true to false. -/
theorem predictCore_step_shape (p : ℚ) (ctx2 stateN : List ℚ) (st : VadState) :
    ((predictCore p ctx2 stateN st).2 = []
        ∧ (predictCore p ctx2 stateN st).1.triggered = st.triggered)
  ∨ ((predictCore p ctx2 stateN st).2 = [true] ∧ st.triggered = false
        ∧ (predictCore p ctx2 stateN st).1.triggered = true)
  ∨ ((predictCore p ctx2 stateN st).2 = [false] ∧ st.triggered = true
        ∧ (predictCore p ctx2 stateN st).1.triggered = false) := by
  unfold predictCore
  simp only []
  split_ifs <;> simp_all

/-- Every `predict` step either emits nothing and leaves `triggered`
unchanged, or emits exactly one START while flipping `triggered` from false
to true, or emits exactly one END while flipping it from true to false. -/
theorem predict_step_shape (model : VadModel) (st : VadState) (chunk : List ℚ) :
    ((predict model st chunk).2 = []
        ∧ (predict model st chunk).1.triggered = st.triggered)
  ∨ ((predict model st chunk).2 = [true] ∧ st.triggered = false
        ∧ (predict model st chunk).1.triggered = true)
  ∨ ((predict model st chunk).2 = [false] ∧ st.triggered = true
        ∧ (predict model st chunk).1.triggered = false) := by
  unfold predict
  exact predictCore_step_shape _ _ _ _

/-- `altRun` distributes over concatenation of event lists. -/
theorem altRun_append (a b : List Bool) :
    ∀ e, altRun e (a ++ b) = (altRun e a).bind (fun e2 => altRun e2 b) := by
  induction a with
  | nil => intro e; simp [altRun]
  | cons x xs ih =>
      intro e
      simp only [List.cons_append, altRun]
      by_cases h : x = e
      · simp [h, ih]
      · simp [h]

/-- Along any chunk stream, the events emitted by the `predict` steps strictly
alternate, the next expected event being START exactly when the machine is
untriggered. -/
theorem runPredicts_alt (model : VadModel) :
    ∀ (chunks : List (List ℚ)) (st : VadState),
      altRun (!st.triggered) (runPredicts model st chunks).2
        = some (!(runPredicts model st chunks).1.triggered) := by
  intro chunks
  induction chunks with
  | nil => intro st; simp [runPredicts, altRun]
  | cons c cs ih =>
      intro st
      simp only [runPredicts, altRun_append]
      rcases predict_step_shape model st c with ⟨he, ht⟩ | ⟨he, hst, ht⟩ | ⟨he, hst, ht⟩
      · rw [he]
        simp only [altRun, Option.bind_some]
        rw [← ht]
        exact ih _
      · rw [he, hst]
        simp only [altRun, Bool.not_false, if_pos rfl, Option.bind_some]
        rw [show (!true) = !((predict model st c).1.triggered) by rw [ht]]
        exact ih _
      · rw [he, hst]
        simp only [altRun, Bool.not_true, if_pos rfl, Option.bind_some]
        rw [show (!false) = !((predict model st c).1.triggered) by rw [ht]]
        exact ih _

/-- C5: at the VAD level the callback events strictly alternate starting with
a START, both along any streaming sequence of `predict` steps from the reset
state (as driven by `WakeupDetector::vadProcessing`) and for the batch entry
point `VadIterator::process` (whose trailing close, if any, fires exactly
when the machine is still triggered).  In particular an END is emitted only
when an unmatched START was emitted earlier in the stream. -/
theorem vad_events_alternate (model : VadModel) :
    (∀ chunks : List (List ℚ),
        (altRun true (runPredicts model vadInit chunks).2).isSome = true)
    ∧ (∀ (st : VadState) (input : List ℚ),
        (altRun true (process model st input).2).isSome = true) := by
  constructor
  · intro chunks
    have h := runPredicts_alt model chunks vadInit
    rw [show (!vadInit.triggered) = true from rfl] at h
    rw [h]
    rfl
  · intro st input
    rw [process]
    simp only [reset_states]
    have h := runPredicts_alt model (exactChunks window_size_samples input) vadInit
    rw [show (!vadInit.triggered) = true from rfl] at h
    split
    · next hcond =>
        simp only []
        rw [altRun_append, h, hcond.2]
        rfl
    · rw [h]
      rfl

/-! ## The max-speech force-end branch (claim C2) -/

/-- A VAD state with a long-open segment, `prev_end = 1024 > 0` and
`next_start = 3072 ≥ prev_end`.  It is reachable from `vadInit` in 938
`predict` steps under `probeModel`: one over-threshold chunk (START,
segment start 0), five silence chunks (setting `temp_end = 1024`, then
`prev_end := temp_end` once the 2048-sample silence exceeds
`min_silence_samples_at_max_speech`, while `temp_end - start = 1024` is below
`min_speech_samples` so no END fires), one over-threshold chunk (clearing
`temp_end` and setting `next_start := current_sample - 512 = 3072`), then 931
more over-threshold chunks to pass 480000 samples. -/
def forcedEndSkipState : VadState :=
  { triggered := true
    temp_end := 0
    current_sample := 480256
    prev_end := 1024
    next_start := 3072
    speeches := []
    current_speech := ⟨0, 1024⟩
    context := List.replicate 64 0
    rnn := List.replicate 256 0 }

/-- C2 as stated is false: in this step `triggered = true`, the segment
already exceeds `max_speech_samples`, and the probability 2/5 is below the
threshold, yet because `prev_end > 0` and `next_start ≥ prev_end` the branch
keeps `triggered = true`, starts a new segment at `next_start` and emits no
END event at all. -/
theorem max_speech_close_counterexample :
    forcedEndSkipState.triggered = true
  ∧ (forcedEndSkipState.current_sample : Int)
      - forcedEndSkipState.current_speech.start > max_speech_samples
  ∧ probOf probeModel forcedEndSkipState (probChunk (mkRat 2 5)) < vadThreshold
  ∧ (predict probeModel forcedEndSkipState (probChunk (mkRat 2 5))).1.triggered = true
  ∧ (predict probeModel forcedEndSkipState (probChunk (mkRat 2 5))).2 = [] := by
  decide

set_option maxHeartbeats 1000000 in
/-- C2, amended.  When a step starts triggered with the (post-increment)
segment length above `max_speech_samples` and the probability is below the
threshold, the current segment is always closed — at `prev_end` when
`prev_end > 0`, else at the incremented `current_sample` — and `temp_end`,
`prev_end`, `next_start` are cleared; but the step ends with
`triggered = false` and exactly one END event only when `prev_end ≤ 0` or
`next_start < prev_end`; when `prev_end > 0 ≤ next_start ≥ prev_end` the
machine stays triggered on a fresh segment starting at `next_start` and no
END is emitted. -/
theorem max_speech_close_amended (model : VadModel) (st : VadState) (chunk : List ℚ)
    (htr : st.triggered = true)
    (hp : probOf model st chunk < vadThreshold)
    (hlong : (st.current_sample : Int) + (window_size_samples : Int)
        - st.current_speech.start > max_speech_samples) :
    (predict model st chunk).1.speeches
      = st.speeches ++ [⟨st.current_speech.start,
          if 0 < st.prev_end then st.prev_end
          else (st.current_sample : Int) + (window_size_samples : Int)⟩]
    ∧ (predict model st chunk).1.temp_end = 0
    ∧ (predict model st chunk).1.prev_end = 0
    ∧ (predict model st chunk).1.next_start = 0
    ∧ (if 0 < st.prev_end ∧ ¬ st.next_start < st.prev_end then
         (predict model st chunk).1.triggered = true
           ∧ (predict model st chunk).2 = []
           ∧ (predict model st chunk).1.current_speech.start = st.next_start
       else
         (predict model st chunk).1.triggered = false
           ∧ (predict model st chunk).2 = [false]) := by
  unfold predict probOf at *
  unfold predictCore
  simp only []
  rw [if_neg (not_le.mpr hp)]
  rw [if_pos ⟨htr, by push_cast; omega⟩]
  by_cases h1 : 0 < st.prev_end
  · by_cases h2 : st.next_start < st.prev_end <;>
      simp [h1, h2, htr]
  · simp [h1, htr]

/-- A triggered long-segment state with `prev_end = 0`, for the witness. -/
def forcedEndPlainState : VadState :=
  { triggered := true
    temp_end := 0
    current_sample := 480256
    prev_end := 0
    next_start := 0
    speeches := []
    current_speech := ⟨0, -1⟩
    context := List.replicate 64 0
    rnn := List.replicate 256 0 }

/-- Witness for `max_speech_close_amended` at a concrete state. -/
theorem max_speech_close_amended_witness :
    (forcedEndPlainState.triggered = true
     ∧ probOf probeModel forcedEndPlainState (probChunk (mkRat 2 5)) < vadThreshold
     ∧ (forcedEndPlainState.current_sample : Int) + (window_size_samples : Int)
         - forcedEndPlainState.current_speech.start > max_speech_samples)
    ∧ ((predict probeModel forcedEndPlainState (probChunk (mkRat 2 5))).1.speeches
        = forcedEndPlainState.speeches ++ [⟨forcedEndPlainState.current_speech.start,
            if 0 < forcedEndPlainState.prev_end then forcedEndPlainState.prev_end
            else (forcedEndPlainState.current_sample : Int) + (window_size_samples : Int)⟩]
      ∧ (predict probeModel forcedEndPlainState (probChunk (mkRat 2 5))).1.temp_end = 0
      ∧ (predict probeModel forcedEndPlainState (probChunk (mkRat 2 5))).1.prev_end = 0
      ∧ (predict probeModel forcedEndPlainState (probChunk (mkRat 2 5))).1.next_start = 0
      ∧ (if 0 < forcedEndPlainState.prev_end
            ∧ ¬ forcedEndPlainState.next_start < forcedEndPlainState.prev_end then
           (predict probeModel forcedEndPlainState (probChunk (mkRat 2 5))).1.triggered = true
             ∧ (predict probeModel forcedEndPlainState (probChunk (mkRat 2 5))).2 = []
             ∧ (predict probeModel forcedEndPlainState
                  (probChunk (mkRat 2 5))).1.current_speech.start
                 = forcedEndPlainState.next_start
         else
           (predict probeModel forcedEndPlainState (probChunk (mkRat 2 5))).1.triggered = false
             ∧ (predict probeModel forcedEndPlainState (probChunk (mkRat 2 5))).2 = [false])) :=
  ⟨⟨rfl, by decide, by decide⟩,
    max_speech_close_amended probeModel forcedEndPlainState (probChunk (mkRat 2 5))
      rfl (by decide) (by decide)⟩

/-! ## Short speech stretches (claim C3) -/

set_option maxRecDepth 10000 in
/-- C3 as stated is false: a single over-threshold chunk (512 samples of
classified speech, far below `min_speech_samples = 4000`) followed by
silence already makes the VAD emit a START event — `vad_callback(true)`
fires the moment the machine triggers, with no minimum-length gate. -/
theorem short_speech_counterexample :
    (runPredicts probeModel vadInit [probChunk 1, zeroChunk, zeroChunk]).2
      = [true] := by
  decide

set_option maxHeartbeats 1000000 in
/-- C3, amended.  A START is emitted immediately at the first over-threshold
chunk, regardless of how short the speech stretch turns out to be; what the
minimum-length gate actually protects is the END side: `predict` emits an END
only from the force-end branch (segment over `max_speech_samples`) or from
the silence branch with the closed segment longer than `min_speech_samples`
(its end being `temp_end`, or the incremented `current_sample` when
`temp_end` was 0). -/
theorem short_speech_amended (model : VadModel) (st : VadState) (chunk : List ℚ) :
    (st.triggered = false → vadThreshold ≤ probOf model st chunk →
        (predict model st chunk).2 = [true])
    ∧ ((predict model st chunk).2 = [false] →
        ((st.current_sample : Int) + (window_size_samples : Int)
            - st.current_speech.start > max_speech_samples
         ∨ (probOf model st chunk < vadThresholdLow
            ∧ (if st.temp_end = 0
                then (st.current_sample : Int) + (window_size_samples : Int)
                else st.temp_end)
                - st.current_speech.start > min_speech_samples))) := by
  unfold predict probOf
  unfold predictCore
  simp only []
  constructor
  · intro htr hp
    rw [if_pos hp]
    split_ifs <;> simp_all
  · intro hend
    split_ifs at hend <;> simp_all

/-- Witness for `short_speech_amended`: the first over-threshold chunk from
the reset state emits the START. -/
theorem short_speech_amended_witness :
    (vadInit.triggered = false
      ∧ vadThreshold ≤ probOf probeModel vadInit (probChunk 1))
    ∧ (predict probeModel vadInit (probChunk 1)).2 = [true] :=
  ⟨⟨rfl, by decide⟩,
    (short_speech_amended probeModel vadInit (probChunk 1)).1 rfl (by decide)⟩

/-! ## Ordering of the current_sample increment (claim C7) -/

/-- Modelled from the spec: the VAD step as the pseudo-code of section 4.5
orders it, with the probability branches (steps 1-4) evaluated on the value
of `current_sample` from before the chunk and step 5 ('Always:
current_sample += 512; refresh context') applied afterwards on every path.
The branch bodies are otherwise those of `predictCore`. -/
def predictSpecOrder (model : VadModel) (st : VadState) (data_chunk : List ℚ) :
    VadState × List Bool :=
  let new_data := newDataOf st.context data_chunk
  let pr := model new_data st.rnn
  let speech_prob := pr.1
  let ctx2 := new_data.drop (effective_window_size - context_samples)
  let stateN := pr.2
  let cs : Int := (st.current_sample : Int)
  if vadThreshold ≤ speech_prob then
    if st.temp_end ≠ 0 then
      if st.triggered then
        ({ st with temp_end := 0
                   next_start :=
                     if st.next_start < st.prev_end then cs - (window_size_samples : Int)
                     else st.next_start
                   rnn := stateN
                   current_sample := st.current_sample + window_size_samples
                   context := ctx2 }, [])
      else
        ({ st with temp_end := 0
                   next_start :=
                     if st.next_start < st.prev_end then cs - (window_size_samples : Int)
                     else st.next_start
                   triggered := true
                   current_speech :=
                     { st.current_speech with start := cs - (window_size_samples : Int) }
                   rnn := stateN
                   current_sample := st.current_sample + window_size_samples
                   context := ctx2 }, [true])
    else
      if st.triggered then
        ({ st with rnn := stateN
                   current_sample := st.current_sample + window_size_samples
                   context := ctx2 }, [])
      else
        ({ st with triggered := true
                   current_speech :=
                     { st.current_speech with start := cs - (window_size_samples : Int) }
                   rnn := stateN
                   current_sample := st.current_sample + window_size_samples
                   context := ctx2 }, [true])
  else if st.triggered = true ∧ cs - st.current_speech.start > max_speech_samples then
    if 0 < st.prev_end then
      if st.next_start < st.prev_end then
        ({ st with speeches :=
                     st.speeches ++ [{ start := st.current_speech.start, stop := st.prev_end }]
                   current_speech := ⟨-1, -1⟩
                   triggered := false
                   prev_end := 0, next_start := 0, temp_end := 0
                   rnn := stateN
                   current_sample := st.current_sample + window_size_samples
                   context := ctx2 }, [false])
      else
        ({ st with speeches :=
                     st.speeches ++ [{ start := st.current_speech.start, stop := st.prev_end }]
                   current_speech := { start := st.next_start, stop := -1 }
                   prev_end := 0, next_start := 0, temp_end := 0
                   rnn := stateN
                   current_sample := st.current_sample + window_size_samples
                   context := ctx2 }, [])
    else
      ({ st with speeches :=
                   st.speeches ++ [{ start := st.current_speech.start, stop := cs }]
                 current_speech := ⟨-1, -1⟩
                 triggered := false
                 prev_end := 0, next_start := 0, temp_end := 0
                 rnn := stateN
                 current_sample := st.current_sample + window_size_samples
                 context := ctx2 }, [false])
  else if vadThresholdLow ≤ speech_prob ∧ speech_prob < vadThreshold then
    ({ st with rnn := stateN
               current_sample := st.current_sample + window_size_samples
               context := ctx2 }, [])
  else if speech_prob < vadThresholdLow then
    if st.triggered then
      let te : Int := if st.temp_end = 0 then cs else st.temp_end
      let pe : Int := if cs - te > min_silence_samples_at_max_speech then te else st.prev_end
      if cs - te ≥ min_silence_samples then
        if te - st.current_speech.start > min_speech_samples then
          ({ st with speeches :=
                       st.speeches ++ [{ start := st.current_speech.start, stop := te }]
                     current_speech := ⟨-1, -1⟩
                     triggered := false
                     prev_end := 0, next_start := 0, temp_end := 0
                     rnn := stateN
                     current_sample := st.current_sample + window_size_samples
                     context := ctx2 }, [false])
        else
          ({ st with temp_end := te, prev_end := pe
                     current_speech := { st.current_speech with stop := te }
                     rnn := stateN
                     current_sample := st.current_sample + window_size_samples
                     context := ctx2 }, [])
      else
        ({ st with temp_end := te, prev_end := pe
                   rnn := stateN
                   current_sample := st.current_sample + window_size_samples
                   context := ctx2 }, [])
    else
      ({ st with rnn := stateN
                 current_sample := st.current_sample + window_size_samples
                 context := ctx2 }, [])
  else
    ({ st with rnn := stateN
               current_sample := st.current_sample + window_size_samples
               context := ctx2 }, [])

set_option maxRecDepth 10000 in
/-- C7 as stated is false: already on the very first chunk from the reset
state the two machines disagree.  The source marks the new segment's start at
`current_sample - 512` AFTER having incremented `current_sample`, i.e. at the
chunk's first sample (0 here), while the spec-ordered machine, which runs the
branches with the pre-chunk `current_sample` and increments only in step 5,
marks it at `-512`. -/
theorem increment_order_counterexample :
    (predict probeModel vadInit (probChunk 1)).1.current_speech.start
      ≠ (predictSpecOrder probeModel vadInit (probChunk 1)).1.current_speech.start := by
  decide

set_option maxHeartbeats 1000000 in
/-- C7, amended.  In the source, `current_sample` is incremented by 512
immediately after inference and BEFORE the probability branches, which
therefore read the post-increment value: a START marks
`current_speech.start = current_sample` as of before the chunk (the
compensating `- 512` in the source), and the force-end guard compares the
post-increment `current_sample + 512 - start` against `max_speech_samples`
(shown here for `prev_end ≤ 0`, where the closing stop is the incremented
`current_sample` too).  The context is refreshed with the last 64 samples of
the just-built input on every reachable branch. -/
theorem increment_before_branches_amended (model : VadModel) (st : VadState) (chunk : List ℚ) :
    (predict model st chunk).1.current_sample = st.current_sample + window_size_samples
  ∧ (predict model st chunk).1.context
      = (newDataOf st.context chunk).drop (effective_window_size - context_samples)
  ∧ (st.triggered = false → vadThreshold ≤ probOf model st chunk →
      (predict model st chunk).1.current_speech.start = (st.current_sample : Int))
  ∧ (st.triggered = true → probOf model st chunk < vadThreshold →
      st.prev_end ≤ 0 →
      (st.current_sample : Int) + (window_size_samples : Int)
        - st.current_speech.start > max_speech_samples →
      (predict model st chunk).1.speeches
        = st.speeches ++ [⟨st.current_speech.start,
            (st.current_sample : Int) + (window_size_samples : Int)⟩]) := by
  refine ⟨?_, ?_, ?_, ?_⟩
  · unfold predict predictCore
    simp only []
    split_ifs <;> rfl
  · unfold predict predictCore
    simp only []
    split_ifs <;>
      first
        | rfl
        | (exfalso
           rename_i hge hmax hband hlow
           rcases not_and_or.mp hband with h | h
           · exact absurd (lt_of_not_le h) hlow
           · exact absurd (lt_of_not_le hge) h)
  · intro htr hp
    unfold probOf at hp
    unfold predict predictCore
    simp only []
    rw [if_pos hp]
    split_ifs <;> simp_all
  · intro htr hp hpe hlong
    unfold probOf at hp
    unfold predict predictCore
    simp only []
    rw [if_neg (not_le.mpr hp)]
    rw [if_pos ⟨htr, by push_cast; omega⟩]
    rw [if_neg (by omega : ¬ 0 < st.prev_end)]
    simp only []
    push_cast
    norm_num

/-- Witness for `increment_before_branches_amended`: the first chunk from the
reset state, whose START marks the segment start at sample 0. -/
theorem increment_before_branches_amended_witness :
    (vadInit.triggered = false
      ∧ vadThreshold ≤ probOf probeModel vadInit (probChunk 1))
    ∧ (predict probeModel vadInit (probChunk 1)).1.current_sample
        = vadInit.current_sample + window_size_samples
    ∧ (predict probeModel vadInit (probChunk 1)).1.current_speech.start
        = (vadInit.current_sample : Int) :=
  ⟨⟨rfl, by decide⟩,
    (increment_before_branches_amended probeModel vadInit (probChunk 1)).1,
    (increment_before_branches_amended probeModel vadInit (probChunk 1)).2.2.1
      rfl (by decide)⟩

/-! ## The batch entry point VadIterator::process (claim C10) -/

/-- Well-formedness invariant of the VAD state. -/
def vadWF (st : VadState) : Prop :=
  (st.triggered = true → 0 ≤ st.current_speech.start) ∧ 0 ≤ st.next_start

set_option maxHeartbeats 1000000 in
/-- Every branch preserves the invariant. -/
theorem predictCore_wf (p : ℚ) (ctx2 stateN : List ℚ) (st : VadState)
    (h : vadWF st) : vadWF (predictCore p ctx2 stateN st).1 := by
  obtain ⟨h1, h2⟩ := h
  unfold predictCore vadWF
  simp only []
  split_ifs <;> refine ⟨fun hx => ?_, ?_⟩ <;> simp_all

/-- `predict` preserves the invariant. -/
theorem predict_wf (model : VadModel) (st : VadState) (chunk : List ℚ)
    (h : vadWF st) : vadWF (predict model st chunk).1 := by
  unfold predict
  exact predictCore_wf _ _ _ _ h

/-- Chunk streams preserve the invariant. -/
theorem runPredicts_wf (model : VadModel) :
    ∀ (chunks : List (List ℚ)) (st : VadState), vadWF st →
      vadWF (runPredicts model st chunks).1 := by
  intro chunks
  induction chunks with
  | nil => intro st h; exact h
  | cons c cs ih =>
      intro st h
      exact ih _ (predict_wf model st c h)

set_option maxHeartbeats 1000000 in
/-- Every `predict` step advances `current_sample` by exactly 512. -/
theorem predict_current_sample (model : VadModel) (st : VadState) (chunk : List ℚ) :
    (predict model st chunk).1.current_sample
      = st.current_sample + window_size_samples := by
  unfold predict predictCore
  simp only []
  split_ifs <;> rfl

/-- `current_sample` advances by 512 per processed chunk. -/
theorem runPredicts_current_sample (model : VadModel) :
    ∀ (chunks : List (List ℚ)) (st : VadState),
      (runPredicts model st chunks).1.current_sample
        = st.current_sample + window_size_samples * chunks.length := by
  intro chunks
  induction chunks with
  | nil => intro st; simp [runPredicts]
  | cons c cs ih =>
      intro st
      simp only [runPredicts, List.length_cons]
      rw [ih, predict_current_sample]
      ring

/-- Auxiliary induction for `exactChunks_length`. -/
theorem exactChunks_length_aux (n : Nat) (hn : 0 < n) :
    ∀ (k : Nat) (l : List ℚ), l.length ≤ k →
      (exactChunks n l).length = l.length / n := by
  intro k
  induction k with
  | zero =>
      intro l hl
      have h0 : l.length = 0 := Nat.le_zero.mp hl
      rw [exactChunks, dif_neg (by omega)]
      simp [h0]
  | succ m ih =>
      intro l hl
      rw [exactChunks]
      split
      · next hcond =>
          have hrec := ih (l.drop n) (by rw [List.length_drop]; omega)
          simp only [List.length_cons, hrec, List.length_drop]
          rw [Nat.div_eq_sub_div hn hcond.2]
      · next hcond =>
          have hlt : l.length < n := by
            rcases not_and_or.mp hcond with h | h
            · omega
            · omega
          simp [Nat.div_eq_of_lt hlt]

/-- `process` slices its input into `length / 512` whole chunks. -/
theorem exactChunks_length (n : Nat) (hn : 0 < n) (l : List ℚ) :
    (exactChunks n l).length = l.length / n :=
  exactChunks_length_aux n hn l.length l le_rfl

/-- The reset state satisfies the invariant. -/
theorem vadInit_wf : vadWF vadInit := by
  constructor
  · intro h
    exact absurd h (by decide)
  · decide

set_option maxHeartbeats 1000000 in
/-- C10: `VadIterator::process` first resets all VAD state (so its result does
not depend on the prior state at all, and `reset_states` is the constant map
to `vadInit`), processes exactly the whole 512-sample chunks (the final
`current_sample` is `512 * (length / 512)`, so a trailing partial chunk is
discarded), ends with `triggered = false`, and when the chunk phase leaves a
segment open it closes it with `end = audio_length_samples` (the full input
length) while emitting one final END callback; otherwise it adds nothing. -/
theorem process_contract (model : VadModel) (input : List ℚ) (st1 st2 : VadState) :
    process model st1 input = process model st2 input
  ∧ reset_states st1 = vadInit
  ∧ (process model st1 input).1.current_sample
      = window_size_samples * (input.length / window_size_samples)
  ∧ (process model st1 input).1.triggered = false
  ∧ (if (runPredicts model vadInit (exactChunks window_size_samples input)).1.triggered then
       (process model st1 input).1.speeches
         = (runPredicts model vadInit (exactChunks window_size_samples input)).1.speeches
             ++ [⟨(runPredicts model vadInit
                     (exactChunks window_size_samples input)).1.current_speech.start,
                  (input.length : Int)⟩]
         ∧ (process model st1 input).2
             = (runPredicts model vadInit (exactChunks window_size_samples input)).2 ++ [false]
     else process model st1 input
       = runPredicts model vadInit (exactChunks window_size_samples input)) := by
  have hwf : vadWF (runPredicts model vadInit (exactChunks window_size_samples input)).1 :=
    runPredicts_wf model _ _ vadInit_wf
  have hcs := runPredicts_current_sample model (exactChunks window_size_samples input) vadInit
  have hlen := exactChunks_length window_size_samples (by decide) input
  refine ⟨rfl, rfl, ?_, ?_, ?_⟩
  · unfold process
    simp only [reset_states]
    have h0 : vadInit.current_sample = 0 := rfl
    split
    · simp only []
      rw [hcs, hlen]
      omega
    · rw [hcs, hlen]
      omega
  · unfold process
    simp only [reset_states]
    split
    · rfl
    · next hcond =>
        by_contra hne
        have htr : (runPredicts model vadInit
            (exactChunks window_size_samples input)).1.triggered = true := by
          revert hne
          cases (runPredicts model vadInit (exactChunks window_size_samples input)).1.triggered
          · intro hne; exact absurd rfl hne
          · intro _; rfl
        exact hcond ⟨hwf.1 htr, htr⟩
  · split
    · next htr =>
        unfold process
        simp only [reset_states]
        rw [if_pos ⟨hwf.1 htr, htr⟩]
        exact ⟨rfl, rfl⟩
    · next htr =>
        have htr' : (runPredicts model vadInit
            (exactChunks window_size_samples input)).1.triggered = false := by
          revert htr
          cases (runPredicts model vadInit (exactChunks window_size_samples input)).1.triggered
          · intro _; rfl
          · intro h; exact absurd rfl h
        unfold process
        simp only [reset_states]
        rw [if_neg (by rw [htr']; exact fun h => by simp at h)]

/-! ## Wake-word activation counter (claim C6) -/

/-- One update keeps the counter within the stated band. -/
theorem activationStep_bounds (p : ℚ) (a : Int)
    (h1 : -refractory ≤ a) (h2 : a ≤ triggerLevel) :
    -refractory ≤ (activationStep p a).1 ∧ (activationStep p a).1 ≤ triggerLevel := by
  unfold activationStep
  unfold triggerLevel refractory at *
  split_ifs <;> constructor <;> omega

/-- Counters along a run stay within the band they started in. -/
theorem activationRun_bounds :
    ∀ (probs : List ℚ) (a : Int), -refractory ≤ a → a ≤ triggerLevel →
      ∀ x ∈ activationRun probs a, -refractory ≤ x.1 ∧ x.1 ≤ triggerLevel := by
  intro probs
  induction probs with
  | nil => intro a _ _ x hx; simp [activationRun] at hx
  | cons p ps ih =>
      intro a h1 h2 x hx
      simp only [activationRun, List.mem_cons] at hx
      rcases hx with hx | hx
      · subst hx
        exact activationStep_bounds p a h1 h2
      · have hb := activationStep_bounds p a h1 h2
        exact ih _ hb.1 hb.2 x hx

/-- C6: the activation counter, initialised to 0, follows the spec's update
rule verbatim (`activationStep = specActivationStep`), always stays within
`[-refractory, triggerLevel] = [-20, 1]` along any probability stream, and a
detection fires exactly at a crossing - `probability > threshold` with the
incremented counter reaching `triggerLevel` - upon which the counter is set
to `-refractory` (so firings are edge-triggered, one per crossing). -/
theorem activation_counter_contract :
    (∀ (probs : List ℚ), ∀ x ∈ activationRun probs 0,
        -refractory ≤ x.1 ∧ x.1 ≤ triggerLevel)
  ∧ (∀ (p : ℚ) (a : Int),
        ((activationStep p a).2 = true ↔ wwThreshold < p ∧ triggerLevel ≤ a + 1)
        ∧ ((activationStep p a).2 = true → (activationStep p a).1 = -refractory))
  ∧ activationStep = specActivationStep := by
  refine ⟨?_, ?_, ?_⟩
  · intro probs x hx
    exact activationRun_bounds probs 0 (by decide) (by decide) x hx
  · intro p a
    constructor
    · unfold activationStep
      split_ifs <;> simp_all
    · intro hf
      unfold activationStep at *
      split_ifs at hf <;> simp_all
  · rfl

/-- Witness for `activation_counter_contract` at a concrete stream. -/
theorem activation_counter_contract_witness :
    ((-20 : Int), true) ∈ activationRun [1] 0
    ∧ (-refractory ≤ ((-20 : Int), true).1 ∧ ((-20 : Int), true).1 ≤ triggerLevel)
    ∧ ((activationStep 1 0).2 = true ↔ wwThreshold < 1 ∧ triggerLevel ≤ 0 + 1)
    ∧ (activationStep 1 0).1 = -refractory :=
  ⟨by decide,
   activation_counter_contract.1 [1] ((-20 : Int), true) (by decide),
   (activation_counter_contract.2.1 1 0).1,
   (activation_counter_contract.2.1 1 0).2 (by decide)⟩

/-! ## Mel stage loop (claim C8) -/

/-- Full characterisation of one pass of the mel inner loop, by induction on
the buffer length. -/
theorem audioToMelsLoop_spec_aux (melModel : MelModel) :
    ∀ (k : Nat) (buf : List ℚ), buf.length ≤ k →
      (audioToMelsLoop melModel buf).1
        = ((exactChunks frameSize buf).map
            (fun c => (melModel c).map melTransform)).flatten
      ∧ (audioToMelsLoop melModel buf).2
          = buf.drop (frameSize * (exactChunks frameSize buf).length)
      ∧ (audioToMelsLoop melModel buf).2.length < frameSize := by
  intro k
  induction k with
  | zero =>
      intro buf hb
      have h0 : buf.length = 0 := Nat.le_zero.mp hb
      rw [audioToMelsLoop, dif_neg (by simp [frameSize]; omega)]
      rw [exactChunks, dif_neg (by simp [frameSize]; omega)]
      simp [frameSize, h0]
  | succ m ih =>
      intro buf hb
      by_cases h : frameSize ≤ buf.length
      · obtain ⟨ih1, ih2, ih3⟩ := ih (buf.drop frameSize)
          (by rw [List.length_drop]; simp only [frameSize] at h ⊢; omega)
        rw [audioToMelsLoop, dif_pos h]
        rw [exactChunks, dif_pos ⟨by simp [frameSize], h⟩]
        refine ⟨?_, ?_, ?_⟩
        · simp only [List.map_cons, List.flatten_cons, ih1]
        · simp only [List.length_cons, ih2, List.drop_drop]
          rw [Nat.mul_add, Nat.mul_one, Nat.add_comm]
        · exact ih3
      · rw [audioToMelsLoop, dif_neg h]
        rw [exactChunks, dif_neg (fun hc => h hc.2)]
        refine ⟨by simp, by simp, ?_⟩
        show buf.length < frameSize
        simp only [frameSize] at h ⊢
        omega

/-- Running the inner loop on `x ++ y` is the same as running it on `x` and
then on the retained remainder with `y` appended: the loop consumes whole
frames from the front and the remainder carries over. -/
theorem audioToMelsLoop_append_aux (melModel : MelModel) :
    ∀ (k : Nat) (x : List ℚ), x.length ≤ k → ∀ y : List ℚ,
      audioToMelsLoop melModel (x ++ y)
        = ((audioToMelsLoop melModel x).1
             ++ (audioToMelsLoop melModel ((audioToMelsLoop melModel x).2 ++ y)).1,
           (audioToMelsLoop melModel ((audioToMelsLoop melModel x).2 ++ y)).2) := by
  intro k
  induction k with
  | zero =>
      intro x hx y
      have h0 : x.length = 0 := Nat.le_zero.mp hx
      have hx0 : x = [] := List.length_eq_zero.mp h0
      subst hx0
      have hx2 : audioToMelsLoop melModel [] = ([], []) := by
        rw [audioToMelsLoop, dif_neg (by simp [frameSize])]
      rw [hx2]
      simp
  | succ m ih =>
      intro x hx y
      by_cases h : frameSize ≤ x.length
      · have hxy : frameSize ≤ (x ++ y).length := by
          rw [List.length_append]; omega
        rw [audioToMelsLoop, dif_pos hxy]
        conv_rhs => rw [audioToMelsLoop, dif_pos h]
        simp only [List.take_append_of_le_length h, List.drop_append_of_le_length h]
        rw [ih (x.drop frameSize)
          (by rw [List.length_drop]; simp only [frameSize] at h ⊢; omega)]
        simp [List.append_assoc]
      · have hx2 : audioToMelsLoop melModel x = ([], x) := by
          rw [audioToMelsLoop, dif_neg h]
        rw [hx2]
        simp

/-- Across thread wake-ups, the mel stage behaves as one big run over the
concatenated sample stream: nothing is lost, reordered or processed twice. -/
theorem melStreamRun_eq (melModel : MelModel) :
    ∀ (batches : List (List ℚ)) (buf : List ℚ), buf.length < frameSize →
      melStreamRun melModel batches buf
        = audioToMelsLoop melModel (buf ++ batches.flatten) := by
  intro batches
  induction batches with
  | nil =>
      intro buf hb
      have h2 : audioToMelsLoop melModel buf = ([], buf) := by
        rw [audioToMelsLoop, dif_neg (by omega)]
      simp [melStreamRun, h2]
  | cons b bs ih =>
      intro buf hb
      simp only [melStreamRun, List.flatten_cons]
      have hrem := (audioToMelsLoop_spec_aux melModel (buf ++ b).length (buf ++ b) le_rfl).2.2
      rw [ih _ hrem]
      rw [show buf ++ (b ++ bs.flatten) = (buf ++ b) ++ bs.flatten from
        (List.append_assoc buf b bs.flatten).symm]
      rw [audioToMelsLoop_append_aux melModel (buf ++ b).length (buf ++ b) le_rfl bs.flatten]

/-- C8: whenever at least `frameSize = 5120` samples are buffered, the mel
stage runs one inference over the oldest 5120 samples, appends each output
value rescaled by `v / 10 + 2` in production order, and removes exactly those
5120 samples while retaining the remainder (which stays shorter than one
frame); streaming the input in arbitrary batches equals one run over the
concatenated input, so no sample is processed twice or dropped. -/
theorem mel_stage_contract (melModel : MelModel) :
    (∀ buf : List ℚ,
        (audioToMelsLoop melModel buf).1
          = ((exactChunks frameSize buf).map
              (fun c => (melModel c).map melTransform)).flatten
        ∧ (audioToMelsLoop melModel buf).2
            = buf.drop (frameSize * (exactChunks frameSize buf).length)
        ∧ (audioToMelsLoop melModel buf).2.length < frameSize)
    ∧ (∀ batches : List (List ℚ),
        melStreamRun melModel batches []
          = audioToMelsLoop melModel batches.flatten) := by
  constructor
  · intro buf
    exact audioToMelsLoop_spec_aux melModel buf.length buf le_rfl
  · intro batches
    have h := melStreamRun_eq melModel batches [] (by simp [frameSize])
    simpa using h

/-! ## Embedding stage loop (claim C9) -/

/-- Full characterisation of one pass of the embedding inner loop: the j-th
emission is one inference over the window starting 256 mel values further for
each previous iteration, and the remainder is what is left after dropping
256 values per iteration. -/
theorem melsToFeaturesLoop_spec_aux (embModel : EmbModel) :
    ∀ (k : Nat) (buf : List ℚ), buf.length ≤ k →
      (∀ j : Nat, j < (melsToFeaturesLoop embModel buf).1.length →
          (melsToFeaturesLoop embModel buf).1.getD j []
            = embModel ((buf.drop (embStepSize * numMels * j)).take
                (embWindowSize * numMels)))
      ∧ (melsToFeaturesLoop embModel buf).2
          = buf.drop (embStepSize * numMels * (melsToFeaturesLoop embModel buf).1.length)
      ∧ (melsToFeaturesLoop embModel buf).2.length / numMels < embWindowSize := by
  intro k
  induction k with
  | zero =>
      intro buf hb
      have h0 : buf.length = 0 := Nat.le_zero.mp hb
      rw [melsToFeaturesLoop, dif_neg (by simp [numMels, embWindowSize]; omega)]
      refine ⟨?_, by simp, ?_⟩
      · intro j hj
        simp at hj
      · simp only [numMels, embWindowSize] at *
        omega
  | succ m ih =>
      intro buf hb
      by_cases h : embWindowSize ≤ buf.length / numMels
      · have hlen : embWindowSize * numMels ≤ buf.length := by
          simp only [embWindowSize, numMels] at h ⊢
          omega
        obtain ⟨ih1, ih2, ih3⟩ := ih (buf.drop (embStepSize * numMels))
          (by rw [List.length_drop]
              simp only [embWindowSize, numMels, embStepSize] at hlen ⊢
              omega)
        rw [melsToFeaturesLoop, dif_pos h]
        refine ⟨?_, ?_, ?_⟩
        · intro j hj
          cases j with
          | zero => simp
          | succ i =>
              simp only [List.length_cons] at hj
              simp only [List.getD_cons_succ]
              rw [ih1 i (by omega)]
              rw [List.drop_drop]
              congr 2
              ring
        · simp only [List.length_cons, ih2, List.drop_drop]
          congr 1
          ring
        · exact ih3
      · rw [melsToFeaturesLoop, dif_neg h]
        refine ⟨?_, by simp, ?_⟩
        · intro j hj
          simp at hj
        · simpa using h

/-- The per-queue view of the loop: every wake-word feature queue receives
exactly the same concatenation of all emissions of the pass. -/
theorem melsToFeaturesQueues_eq (embModel : EmbModel) :
    ∀ (k : Nat) (buf : List ℚ), buf.length ≤ k → ∀ feats : List (List ℚ),
      melsToFeaturesQueues embModel feats buf
        = (feats.map (fun q => q ++ (melsToFeaturesLoop embModel buf).1.flatten),
           (melsToFeaturesLoop embModel buf).2) := by
  intro k
  induction k with
  | zero =>
      intro buf hb feats
      have h0 : buf.length = 0 := Nat.le_zero.mp hb
      have hc : ¬ embWindowSize ≤ buf.length / numMels := by
        simp only [numMels, embWindowSize]
        omega
      rw [melsToFeaturesQueues, dif_neg hc]
      rw [melsToFeaturesLoop, dif_neg hc]
      simp
  | succ m ih =>
      intro buf hb feats
      by_cases h : embWindowSize ≤ buf.length / numMels
      · have hlen : embWindowSize * numMels ≤ buf.length := by
          simp only [embWindowSize, numMels] at h ⊢
          omega
        rw [melsToFeaturesQueues, dif_pos h]
        rw [melsToFeaturesLoop, dif_pos h]
        rw [ih (buf.drop (embStepSize * numMels))
          (by rw [List.length_drop]
              simp only [embWindowSize, numMels, embStepSize] at hlen ⊢
              omega)]
        simp [List.map_map, Function.comp, List.append_assoc]
      · rw [melsToFeaturesQueues, dif_neg h]
        rw [melsToFeaturesLoop, dif_neg h]
        simp

/-- C9: whenever the buffered mel values hold at least `embWindowSize = 76`
frames (of `numMels = 32` bins), the embedding stage runs one inference over
the oldest 76-frame window, emits the result, then drops exactly
`embStepSize * numMels = 256` of the oldest values, repeating until fewer
than 76 frames remain; the j-th emission is the inference over the window at
offset 256*j, and every wake-word queue receives the same full emission
sequence appended in order (no consumer sees a subset). -/
theorem embedding_stage_contract (embModel : EmbModel) (buf : List ℚ) :
    (∀ j : Nat, j < (melsToFeaturesLoop embModel buf).1.length →
        (melsToFeaturesLoop embModel buf).1.getD j []
          = embModel ((buf.drop (embStepSize * numMels * j)).take
              (embWindowSize * numMels)))
    ∧ (melsToFeaturesLoop embModel buf).2
        = buf.drop (embStepSize * numMels * (melsToFeaturesLoop embModel buf).1.length)
    ∧ (melsToFeaturesLoop embModel buf).2.length / numMels < embWindowSize
    ∧ (embWindowSize * numMels ≤ buf.length →
        0 < (melsToFeaturesLoop embModel buf).1.length)
    ∧ ∀ feats : List (List ℚ),
        melsToFeaturesQueues embModel feats buf
          = (feats.map (fun q => q ++ (melsToFeaturesLoop embModel buf).1.flatten),
             (melsToFeaturesLoop embModel buf).2) := by
  obtain ⟨h1, h2, h3⟩ := melsToFeaturesLoop_spec_aux embModel buf.length buf le_rfl
  refine ⟨h1, h2, h3, ?_, ?_⟩
  · intro hlen
    have hc : embWindowSize ≤ buf.length / numMels := by
      simp only [embWindowSize, numMels] at hlen ⊢
      omega
    rw [melsToFeaturesLoop, dif_pos hc]
    simp
  · intro feats
    exact melsToFeaturesQueues_eq embModel buf.length buf le_rfl feats

/-- A concrete embedding oracle for the witness. -/
def embConstModel : EmbModel := fun _ => [0]

/-- 84 mel frames: enough for two loop iterations. -/
def embWitnessBuf : List ℚ := List.replicate 2688 0

/-- Witness for `embedding_stage_contract` at a concrete buffer. -/
theorem embedding_stage_contract_witness :
    (embWindowSize * numMels ≤ embWitnessBuf.length
      ∧ 0 < (melsToFeaturesLoop embConstModel embWitnessBuf).1.length)
    ∧ (melsToFeaturesLoop embConstModel embWitnessBuf).1.getD 0 []
        = embConstModel ((embWitnessBuf.drop (embStepSize * numMels * 0)).take
            (embWindowSize * numMels))
    ∧ melsToFeaturesQueues embConstModel [[], [1]] embWitnessBuf
        = ([[], [1]].map
            (fun q => q ++ (melsToFeaturesLoop embConstModel embWitnessBuf).1.flatten),
           (melsToFeaturesLoop embConstModel embWitnessBuf).2) := by
  have h := embedding_stage_contract embConstModel embWitnessBuf
  have hlen : embWindowSize * numMels ≤ embWitnessBuf.length := by
    rw [embWitnessBuf, List.length_replicate]
    decide
  exact ⟨⟨hlen, h.2.2.2.1 hlen⟩, h.1 0 (h.2.2.2.1 hlen), h.2.2.2.2 [[], [1]]⟩

/-! ## Delayed voice-end overlay (claim C4) -/

/-- Whenever an end is pending, both `isVoiceDetected` and
`previousVoiceState` are true (the raw END that set the flag stored
`isVoiceDetected = true` into `previousVoiceState`, and nothing clears them
until the delayed delivery).  Consequently a raw START arriving during the
delay always sees `previousState = true` and the cancel branch of the
callback never runs while a delivery is pending. -/
theorem overlay_pending_invariant (D : Nat) (st : OverlayState) (i : OvIn)
    (h : st.voiceEndPending = true →
        st.previousVoiceState = true ∧ st.isVoiceDetected = true) :
    ((overlayStep D st i).1.voiceEndPending = true →
        (overlayStep D st i).1.previousVoiceState = true
          ∧ (overlayStep D st i).1.isVoiceDetected = true)
    ∧ (st.voiceEndPending = true → i = OvIn.rawStart →
        (overlayStep D st i).1.voiceEndPending = true ∧ (overlayStep D st i).2 = []) := by
  cases i <;> unfold overlayStep <;> simp only [] <;> split_ifs <;> simp_all

/-- C4 is a code bug: with `voiceEndDelayFrames = 2`, after raw START, raw
END, then a raw START arriving during the delay, two feed ticks still
deliver the external END notification.  The spec (and the source's own
comment at the cancel site, 'Cancel any pending voice end notification')
say the pending END must be cancelled; the guard
`previousState = previousVoiceState.exchange(isVoiceDetected)` makes that
branch unreachable while an end is pending, so the END is delivered
mid-speech. -/
theorem end_delay_cancel_failing :
    (overlayRun 2 overlayInit
       [OvIn.rawStart, OvIn.rawEnd, OvIn.rawStart, OvIn.tick, OvIn.tick]).2
      = [ExtEvent.started, ExtEvent.ended] := by
  decide
